import Mathlib

/-!
Verification of the email-sequence enrollment processor of grantcrm.

The definitions below are a shallow embedding of the sequence-processing
route (`processEnrollment` and the `POST` batch runner): Supabase reads and
writes become lookups in an explicit environment, timestamps become epoch
seconds (`Int`), thrown exceptions become `Except`, and every externally
visible action (decrypt, transport construction, log insert, send,
enrollment update) is recorded in an event trace.
-/

namespace GrantCRM

/-- JS `x || d` on a nullable string: `null`/`undefined` and the empty
string are falsy and fall through to the default. -/
def jsStrOr (o : Option String) (d : String) : String :=
  match o with
  | none => d
  | some s => if s = "" then d else s

/-- JS `x || ""` on a nullable string. -/
def orEmpty (o : Option String) : String :=
  jsStrOr o ""

/-- JS truthiness of a nullable string (`!x` is true exactly when this is
false). -/
def jsTruthy (o : Option String) : Bool :=
  match o with
  | none => false
  | some s => !(s == "")

/-- Left-to-right, non-overlapping global replacement on character lists,
as performed by a JS `String.replace(/pat/g, repl)`.  Fuel-indexed so that
it is structurally recursive and reduces inside the kernel; fuel at least
the length of the scanned list is always enough, since every step consumes
at least one character. -/
def rAll (pat repl : List Char) : Nat → List Char → List Char
  | _, [] => []
  | 0, l => l
  | f + 1, a :: l =>
    if !pat.isEmpty && pat.isPrefixOf (a :: l) then
      repl ++ rAll pat repl f (List.drop pat.length (a :: l))
    else
      a :: rAll pat repl f l

/-- Global replacement `s.replace(/pat/g, repl)` for a literal pattern `pat`. -/
def replaceAll (s pat repl : String) : String :=
  ⟨rAll pat.data repl.data s.data.length s.data⟩

/-- Status of a sequence enrollment: the union of the literals `active`,
`paused`, `completed`, `replied`. -/
inductive EnrollmentStatus where
  | active
  | paused
  | completed
  | replied
deriving DecidableEq, Repr

/-- Joined contact row (`contacts(id, email, first_name, last_name, ...)`).
All user-entered fields are nullable. -/
structure Contact where
  id : String
  email : Option String
  first_name : Option String
  last_name : Option String
deriving DecidableEq, Repr

/-- One step of a sequence: template reference, optional subject override,
and the delay (`delay_days` amount plus `delay_unit`) to wait before the
following step. -/
structure EmailSequenceStep where
  template_id : String
  subject_override : Option String
  delay_days : Option Int
  delay_unit : Option String
deriving DecidableEq, Repr

/-- Joined sequence row (`email_sequences(id, name, steps, smtp_config_id)`). -/
structure EmailSequence where
  id : String
  name : String
  steps : List EmailSequenceStep
  smtp_config_id : Option String
deriving DecidableEq, Repr

/-- An enrollment row joined with its contact and sequence, as returned by
the due-enrollment query.  The contact join can be null at runtime, hence
`Option`. -/
structure EnrollmentWithRelations where
  id : String
  current_step : Nat
  status : EnrollmentStatus
  next_send_at : Option Int
  contact : Option Contact
  sequence : EmailSequence
deriving DecidableEq, Repr

/-- An `email_templates` row. -/
structure EmailTemplate where
  id : String
  subject : Option String
  body_html : Option String
  body_text : Option String
deriving DecidableEq, Repr

/-- An `smtp_configs` row. -/
structure SMTPConfig where
  id : String
  name : Option String
  smtp_host : String
  smtp_port : Nat
  smtp_user : String
  smtp_pass_encrypted : Option String
  email_addr : Option String
  organization_id : String
deriving DecidableEq, Repr

/-- The update object written to `sequence_enrollments`: only the fields
actually present in the JS object literal are set (`none` means the column
is not mentioned by the update at all, `some (some t)` sets a timestamp,
`some none` sets SQL `null`). -/
structure RowUpdate where
  current_step : Option Nat := none
  updated_at : Option Int := none
  next_send_at : Option (Option Int) := none
  status : Option EnrollmentStatus := none
deriving DecidableEq, Repr

/-- Delay arithmetic of the advancer (route lines 333-346): the next send
time is `now` plus the next step's delay.  `delay_days ?? 1` keeps an
explicit 0 and defaults only `null`/`undefined` to 1; `delay_unit || "days"`
defaults falsy units to days; units `minutes`/`hours` add to the
minute/hour fields of the fresh `Date`, anything else adds days.  Time is
modelled as epoch seconds, so the field updates become exact second
arithmetic. -/
def computeNextSendAt (now : Int) (st : EmailSequenceStep) : Int :=
  let delayValue := st.delay_days.getD 1
  let delayUnit := jsStrOr st.delay_unit "days"
  if delayUnit = "minutes" then now + delayValue * 60
  else if delayUnit = "hours" then now + delayValue * 3600
  else now + delayValue * 86400

/-- Effective subject: `step.subject_override || template.subject || "(No Subject)"`. -/
def effSubject (st : EmailSequenceStep) (t : EmailTemplate) : String :=
  if jsTruthy st.subject_override then orEmpty st.subject_override
  else if jsTruthy t.subject then orEmpty t.subject
  else "(No Subject)"

/-- Variable substitution applied to a body: global replacement of the
three placeholders by the contact's fields, missing fields becoming the
empty string (`contact.x || ""`). -/
def substituteVars (b : String) (c : Contact) : String :=
  let b1 := replaceAll b "\x7b\x7bfirst_name\x7d\x7d" (orEmpty c.first_name)
  let b2 := replaceAll b1 "\x7b\x7blast_name\x7d\x7d" (orEmpty c.last_name)
  replaceAll b2 "\x7b\x7bemail\x7d\x7d" (orEmpty c.email)

/-- The effective body of a step's email:
`template.body_html || template.body_text || ""`, then variable
substitution. -/
def renderBody (t : EmailTemplate) (c : Contact) : String :=
  substituteVars (jsStrOr t.body_html (jsStrOr t.body_text "")) c

/-- Externally visible actions of one run, in program order. -/
inductive Event where
  | fetchTemplate (templateId : String)
  | decrypt (accountId : String)
  | createTransport (accountId : String)
  | insertEmailLog (enrollmentId : String) (subject : String) (body : String)
  | updateEmailLog (emailId : Nat)
  | send (enrollmentId : String) (fromAddr : String) (toAddr : String)
      (subject : String) (html : String)
  | insertActivity (contactId : String)
  | updateEnrollment (enrollmentId : String) (u : RowUpdate)
deriving DecidableEq, Repr

/-- Environment of one run: the database tables read by the route, the
current instant, and the outcomes of the fallible external calls
(`decrypt` may throw; the email-log insert returns an error object or the
new row id; `sendMail` may reject).  `track` is `injectTracking` from
`@/lib/email-tracking` (outside this route), taken as an opaque
body-rewriting function. -/
structure Env where
  enrollments : List EnrollmentWithRelations
  templates : List EmailTemplate
  smtpConfigs : List SMTPConfig
  now : Int
  decryptResult : String → Except String String
  insertEmailResult : String → Except String Nat
  sendResult : String → Except String Unit
  track : Nat → String → String

/-- The per-enrollment result object: id, status (the literal `success` or
`error`), and an optional message. -/
structure ProcResult where
  id : String
  status : String
  message : Option String
deriving DecidableEq, Repr

/-- The transporter cache: SMTP config id mapped to the transporter, which
carries its `accountInfo` (the decrypted-credential transporter itself has
no further observable state here). -/
def TransMap : Type := List (String × SMTPConfig)

/-- Outcome of processing one enrollment: its result object, the
transporter cache after the call, and the trace of external actions. -/
structure ProcOut where
  result : ProcResult
  transporters : List (String × SMTPConfig)
  events : List Event
deriving Repr

/-- Transporter acquisition (route lines 211-258): reuse the cached
transporter for the sequence's SMTP config id, otherwise fetch the config
row, require a configured password, decrypt it and construct a pooled
transporter, caching it under the config id.  Errors carry the events
already emitted (a throwing `decrypt` has already happened). -/
def acquireTransport (env : Env) (ts : List (String × SMTPConfig)) (smtpId : String) :
    Except (String × List Event) (SMTPConfig × List (String × SMTPConfig) × List Event) :=
  match List.lookup smtpId ts with
  | some account => .ok (account, ts, [])
  | none =>
    match env.smtpConfigs.find? (fun a => a.id == smtpId) with
    | none => .error ("SMTP config not found (ID: " ++ smtpId ++ ")", [])
    | some account =>
      if jsTruthy account.smtp_pass_encrypted = false then
        .error ("SMTP Password not configured for this account", [])
      else
        match env.decryptResult (orEmpty account.smtp_pass_encrypted) with
        | .error m => .error (m, [.decrypt smtpId])
        | .ok _pw => .ok (account, (smtpId, account) :: ts, [.decrypt smtpId, .createTransport smtpId])

/-- Steps 3-7 of the advancer once a transporter is at hand: build subject
and body, insert the email-log row (aborting the send if that fails),
inject tracking and update the log row, send, record the activity, then
write the enrollment update - advancing the step and either scheduling the
next send or completing the enrollment. -/
def sendPipeline (env : Env) (e : EnrollmentWithRelations) (contact : Contact)
    (step : EmailSequenceStep) (template : EmailTemplate) (account : SMTPConfig)
    (ts : List (String × SMTPConfig)) (ev0 : List Event) : ProcOut :=
  let subject := effSubject step template
  let body := renderBody template contact
  match env.insertEmailResult e.id with
  | .error m =>
    ⟨⟨e.id, "error", some ("Failed to create email log: " ++ m)⟩, ts,
      ev0 ++ [.insertEmailLog e.id subject body]⟩
  | .ok emailId =>
    let trackedBody := env.track emailId body
    let fromAddr := "\"" ++ jsStrOr account.name account.smtp_user ++ "\" <" ++
      jsStrOr account.email_addr account.smtp_user ++ ">"
    let ev1 := ev0 ++ [.insertEmailLog e.id subject body, .updateEmailLog emailId]
    match env.sendResult e.id with
    | .error m =>
      ⟨⟨e.id, "error", some m⟩, ts,
        ev1 ++ [.send e.id fromAddr (orEmpty contact.email) subject trackedBody]⟩
    | .ok _ =>
      let ev2 := ev1 ++ [.send e.id fromAddr (orEmpty contact.email) subject trackedBody,
        .insertActivity contact.id]
      match e.sequence.steps[e.current_step + 1]? with
      | some nextStep =>
        let u : RowUpdate :=
          { current_step := some (e.current_step + 1), updated_at := some env.now,
            next_send_at := some (some (computeNextSendAt env.now nextStep)) }
        ⟨⟨e.id, "success", some "Email sent successfully"⟩, ts,
          ev2 ++ [.updateEnrollment e.id u]⟩
      | none =>
        let u : RowUpdate :=
          { current_step := some (e.current_step + 1), updated_at := some env.now,
            next_send_at := some none, status := some .completed }
        ⟨⟨e.id, "success", some "Email sent successfully"⟩, ts,
          ev2 ++ [.updateEnrollment e.id u]⟩

/-- One enrollment processed by the advancer (`processEnrollment`).  The
contact check, the auto-complete guard for `current_step >= steps.length`
(note `steps[i]? = none` exactly when `steps.length ≤ i`), the template
fetch, the SMTP config check, transporter acquisition, and the send
pipeline; thrown exceptions surface as error results through the
function-level catch. -/
def processEnrollment (env : Env) (ts : List (String × SMTPConfig))
    (e : EnrollmentWithRelations) : ProcOut :=
  match e.contact with
  | none => ⟨⟨e.id, "error", some "Enrollment has no valid contact or email"⟩, ts, []⟩
  | some contact =>
    if jsTruthy contact.email = false then
      ⟨⟨e.id, "error", some "Enrollment has no valid contact or email"⟩, ts, []⟩
    else
      match e.sequence.steps[e.current_step]? with
      | none =>
        ⟨⟨e.id, "success", some "Sequence completed (no more steps)"⟩, ts,
          [.updateEnrollment e.id { status := some .completed, updated_at := some env.now }]⟩
      | some step =>
        match env.templates.find? (fun t => t.id == step.template_id) with
        | none =>
          ⟨⟨e.id, "error", some ("Template not found (ID: " ++ step.template_id ++ ")")⟩, ts,
            [.fetchTemplate step.template_id]⟩
        | some template =>
          if jsTruthy e.sequence.smtp_config_id = false then
            ⟨⟨e.id, "error", some "No SMTP account selected for this sequence."⟩, ts,
              [.fetchTemplate step.template_id]⟩
          else
            match acquireTransport env ts (orEmpty e.sequence.smtp_config_id) with
            | .error (m, evs) =>
              ⟨⟨e.id, "error", some m⟩, ts, [.fetchTemplate step.template_id] ++ evs⟩
            | .ok (account, ts', evs) =>
              sendPipeline env e contact step template account ts'
                ([.fetchTemplate step.template_id] ++ evs)

/-- Apply one enrollment update object to a row: only the mentioned
columns change. -/
def applyUpdate (row : EnrollmentWithRelations) (u : RowUpdate) : EnrollmentWithRelations :=
  { row with
    current_step := u.current_step.getD row.current_step,
    status := u.status.getD row.status,
    next_send_at :=
      match u.next_send_at with
      | none => row.next_send_at
      | some v => v }

/-- Replay the enrollment updates of a trace onto a set of rows. -/
def applyEvents (rows : List EnrollmentWithRelations) (evs : List Event) :
    List EnrollmentWithRelations :=
  evs.foldl
    (fun rs ev =>
      match ev with
      | .updateEnrollment i u => rs.map (fun r => if r.id = i then applyUpdate r u else r)
      | _ => rs)
    rows

/-- Process a list of enrollments one after another, threading the shared
transporter cache and collecting results and events in order. -/
def runSeq (env : Env) : List (String × SMTPConfig) → List EnrollmentWithRelations →
    List ProcResult × List (String × SMTPConfig) × List Event
  | ts, [] => ([], ts, [])
  | ts, e :: rest =>
    let o := processEnrollment env ts e
    let r := runSeq env o.transporters rest
    (o.result :: r.1, r.2.1, o.events ++ r.2.2)

/-- Batches processed sequentially, the transporter cache carried across
them. -/
def runBatches (env : Env) : List (List EnrollmentWithRelations) →
    List (String × SMTPConfig) →
    List ProcResult × List (String × SMTPConfig) × List Event
  | [], ts => ([], ts, [])
  | b :: bs, ts =>
    let o1 := runSeq env ts b
    let o2 := runBatches env bs o1.2.1
    (o1.1 ++ o2.1, o2.2.1, o1.2.2 ++ o2.2.2)

/-- Partition a list into chunks of `n` (fuel-indexed; fuel at least the
list length is always enough). -/
def chunksFuel (n : Nat) : Nat → List α → List (List α)
  | _, [] => []
  | 0, a :: l => [a :: l]
  | f + 1, a :: l => ((a :: l).take n) :: chunksFuel n f ((a :: l).drop n)

/-- The due-enrollment query: `status = active` and
(`next_send_at <= now` or `next_send_at is null`). -/
def dueEnrollments (env : Env) : List EnrollmentWithRelations :=
  env.enrollments.filter
    (fun e =>
      (match e.status with | .active => true | _ => false) &&
      (match e.next_send_at with | none => true | some t => decide (t ≤ env.now)))

/-- The JSON body of a successful trigger response.  `none` in
`successCount`/`failureCount`/`message` means the corresponding key is
absent from the returned object. -/
structure TriggerResponse where
  success : Bool
  processed : Nat
  successCount : Option Nat
  failureCount : Option Nat
  details : List ProcResult
  message : Option String
deriving DecidableEq, Repr

/-- The `POST` batch runner on its success path: query due enrollments,
short-circuit with a `processed = 0` report when none are due, otherwise
process them in sequential batches of 5 sharing one transporter cache and
aggregate the counts.  Returns the response together with the run's event
trace. -/
def POSTHandler (env : Env) : TriggerResponse × List Event :=
  let enrollments := dueEnrollments env
  if enrollments.isEmpty then
    (⟨true, 0, none, none, [], some "No enrollments due for processing"⟩, [])
  else
    let o := runBatches env (chunksFuel 5 enrollments.length enrollments) []
    (⟨true, o.1.length,
      some (o.1.filter (fun r => r.status == "success")).length,
      some (o.1.filter (fun r => r.status == "error")).length,
      o.1, none⟩, o.2.2)

/-- Field-presence check of the spec's response contract
`\x7b success, processed, successCount, failureCount, details \x7d`: all
five keys present (modelled from the spec; `success`, `processed` and
`details` are always present here, so presence of the two counts is the
content). -/
def conformsToContract (r : TriggerResponse) : Bool :=
  r.successCount.isSome && r.failureCount.isSome

/-- Event classifiers used by the theorems. -/
def isSendEvent : Event → Bool
  | .send _ _ _ _ _ => true
  | _ => false

def isInsertLogEventFor (i : String) : Event → Bool
  | .insertEmailLog j _ _ => j == i
  | _ => false

def isUpdateEnrollmentEvent : Event → Bool
  | .updateEnrollment _ _ => true
  | _ => false

def isCreateTransportFor (acc : String) : Event → Bool
  | .createTransport a => a == acc
  | _ => false

def isDecryptFor (acc : String) : Event → Bool
  | .decrypt a => a == acc
  | _ => false

/-! Concrete fixtures shared by the witness and counterexample theorems. -/

def contact1 : Contact := ⟨"c1", some "to@x", some "Jo", some "Doe"⟩

def template1 : EmailTemplate :=
  ⟨"t1", some "Subj", some "Hello \x7b\x7bfirst_name\x7d\x7d", none⟩

def smtp1 : SMTPConfig :=
  ⟨"s1", some "Acct", "smtp.example", 465, "user", some "enc", some "acct@example", "org1"⟩

def step1 : EmailSequenceStep := ⟨"t1", none, some 0, some "days"⟩

def stepHours : EmailSequenceStep := ⟨"t1", none, some 2, some "hours"⟩

def seq1 : EmailSequence := ⟨"q1", "Seq", [step1], some "s1"⟩

def seq2 : EmailSequence := ⟨"q2", "Seq2", [step1, stepHours], some "s1"⟩

def seqEmpty : EmailSequence := ⟨"q0", "Seq0", [], some "s1"⟩

def seqMissing : EmailSequence :=
  ⟨"q3", "SeqM", [⟨"missing", none, some 1, some "days"⟩], some "s1"⟩

def mkEnr (i : String) (cs : Nat) (nsa : Option Int) (c : Option Contact)
    (sq : EmailSequence) : EnrollmentWithRelations :=
  ⟨i, cs, .active, nsa, c, sq⟩

def baseEnv : Env where
  enrollments := []
  templates := [template1]
  smtpConfigs := [smtp1]
  now := 5000
  decryptResult := fun _ => .ok "pw"
  insertEmailResult := fun _ => .ok 7
  sendResult := fun _ => .ok ()
  track := fun _ b => b

def enrNoContact : EnrollmentWithRelations := mkEnr "e1" 3 (some 100) none seqEmpty

def enrPast : EnrollmentWithRelations := mkEnr "e2" 3 (some 100) (some contact1) seqEmpty

def env3 : Env :=
  { baseEnv with
    enrollments := [
      mkEnr "a" 0 none (some contact1) seq1,
      mkEnr "b" 0 none (some contact1) seqMissing,
      mkEnr "c" 0 none (some contact1) seq1] }

def enr2 : EnrollmentWithRelations := mkEnr "e9" 0 none (some contact1) seq2

def upd9 : RowUpdate :=
  { current_step := some 1, updated_at := some 5000, next_send_at := some (some 12200) }

/-- Scanning a trace left to right: true when no send event occurs before
the first email-log insert for the given enrollment (in particular when no
send occurs at all). -/
def sendAfterLog (i : String) : List Event → Bool
  | [] => true
  | ev :: rest =>
    if isSendEvent ev then false
    else if isInsertLogEventFor i ev then true
    else sendAfterLog i rest

def envInsFail : Env := { baseEnv with insertEmailResult := fun _ => .error "db down" }

/-- One when the cache holds the account id, else 0. -/
def lookupBit (ts : List (String × SMTPConfig)) (acc : String) : Nat :=
  if (List.lookup acc ts).isSome then 1 else 0

def env6 : Env :=
  { baseEnv with
    enrollments := [
      mkEnr "x1" 0 none (some contact1) seq1,
      mkEnr "x2" 0 none (some contact1) seq1,
      mkEnr "x3" 0 none (some contact1) seq1,
      mkEnr "x4" 0 none (some contact1) seq1,
      mkEnr "x5" 0 none (some contact1) seq1,
      mkEnr "x6" 0 none (some contact1) seq1] }

/-- Models the transporter lazy-init of the route under the intra-batch
concurrency of `Promise.all`: the cache check (`transporters.get`) and the
cache population (`transporters.set`) of one enrollment are separated by
awaited asynchronous calls (the SMTP-config fetch), so the steps of the
tasks of one batch may interleave.  A task is reduced to its sequence's
SMTP config id; a schedule lists which task acts at each point. -/
inductive RacePhase where
  | start
  | needCreate
  | done
deriving DecidableEq, Repr

structure RaceState where
  cache : List String
  phases : List RacePhase
  events : List Event
deriving Repr

/-- One scheduled step of task `i`: its first step checks the shared cache
and either finishes (reuse) or commits to creating; its second step
decrypts, constructs the transporter and populates the cache. -/
def raceStep (tasks : List String) (s : RaceState) (i : Nat) : RaceState :=
  match tasks[i]?, s.phases[i]? with
  | some acc, some .start =>
    if s.cache.contains acc then { s with phases := s.phases.set i .done }
    else { s with phases := s.phases.set i .needCreate }
  | some acc, some .needCreate =>
    { cache := acc :: s.cache, phases := s.phases.set i .done,
      events := s.events ++ [.decrypt acc, .createTransport acc] }
  | _, _ => s

def raceRun (tasks : List String) (sched : List Nat) : RaceState :=
  sched.foldl (raceStep tasks) ⟨[], tasks.map (fun _ => .start), []⟩

/-! Theorems. -/

/-- C3: when the next step exists, `next_send_at` is `now` plus the step
delay: `delay_unit = hours` with `delay_days = 2` gives exactly now + 2
hours; an explicit 0 delay gives now for every unit; a missing
`delay_days` defaults to 1; a missing `delay_unit` defaults to days; and
the units minutes/hours/days add to the minutes/hours/days of now. -/
theorem claim3_delay_arithmetic :
    (∀ (now : Int) (st : EmailSequenceStep),
      st.delay_unit = some "hours" → st.delay_days = some 2 →
        computeNextSendAt now st = now + 2 * 3600) ∧
    (∀ (now : Int) (st : EmailSequenceStep),
      st.delay_days = some 0 → computeNextSendAt now st = now) ∧
    (∀ (now : Int) (st : EmailSequenceStep),
      st.delay_days = none → st.delay_unit = some "minutes" →
        computeNextSendAt now st = now + 1 * 60) ∧
    (∀ (now : Int) (st : EmailSequenceStep) (d : Int),
      st.delay_unit = none → st.delay_days = some d →
        computeNextSendAt now st = now + d * 86400) ∧
    (∀ (now : Int) (st : EmailSequenceStep) (d : Int),
      st.delay_days = some d →
        (st.delay_unit = some "minutes" → computeNextSendAt now st = now + d * 60) ∧
        (st.delay_unit = some "hours" → computeNextSendAt now st = now + d * 3600) ∧
        (st.delay_unit = some "days" → computeNextSendAt now st = now + d * 86400)) := by
  refine ⟨?_, ?_, ?_, ?_, ?_⟩
  · intro now st h1 h2
    simp [computeNextSendAt, jsStrOr, h1, h2]
  · intro now st h
    simp only [computeNextSendAt, h, Option.getD_some]
    split <;> simp
  · intro now st h1 h2
    simp [computeNextSendAt, jsStrOr, h1, h2]
  · intro now st d h1 h2
    simp [computeNextSendAt, jsStrOr, h1, h2]
  · intro now st d h
    refine ⟨fun hu => ?_, fun hu => ?_, fun hu => ?_⟩ <;>
      simp [computeNextSendAt, jsStrOr, h, hu]

/-- C3 witness: the delay arithmetic evaluated at concrete steps. -/
theorem claim3_witness :
    computeNextSendAt 1000 ⟨"t", none, some 2, some "hours"⟩ = 1000 + 2 * 3600 ∧
    computeNextSendAt 1000 ⟨"t", none, some 0, some "hours"⟩ = 1000 ∧
    computeNextSendAt 1000 ⟨"t", none, none, some "minutes"⟩ = 1000 + 1 * 60 ∧
    computeNextSendAt 1000 ⟨"t", none, some 3, none⟩ = 1000 + 3 * 86400 :=
  ⟨claim3_delay_arithmetic.1 1000 _ rfl rfl,
   claim3_delay_arithmetic.2.1 1000 _ rfl,
   claim3_delay_arithmetic.2.2.1 1000 _ rfl rfl,
   claim3_delay_arithmetic.2.2.2.1 1000 _ 3 rfl rfl⟩

/-- C10: every `delay_unit` other than exactly minutes or hours - any
unrecognized or malformed string included - is treated as days. -/
theorem claim10_unit_fallback :
    ∀ (now : Int) (st : EmailSequenceStep) (u : String),
      st.delay_unit = some u → u ≠ "minutes" → u ≠ "hours" →
      computeNextSendAt now st = now + st.delay_days.getD 1 * 86400 := by
  intro now st u hu hm hh
  by_cases h0 : u = ""
  · simp [computeNextSendAt, jsStrOr, hu, h0]
  · simp [computeNextSendAt, jsStrOr, hu, h0, hm, hh]

/-- C10 witness: a malformed unit falls back to day arithmetic. -/
theorem claim10_witness :
    computeNextSendAt 1000 ⟨"t", none, some 3, some "weeks"⟩ = 1000 + 3 * 86400 := by
  have h := claim10_unit_fallback 1000 ⟨"t", none, some 3, some "weeks"⟩ "weeks"
    rfl (by decide) (by decide)
  simpa using h

/-- C8: the effective subject is the step subject override when present
(non-falsy), else the template subject, else the literal
`(No Subject)` - also when the earlier fields are present but falsy. -/
theorem claim8_subject_resolution :
    (∀ (st : EmailSequenceStep) (t : EmailTemplate) (s : String),
      st.subject_override = some s → s ≠ "" → effSubject st t = s) ∧
    (∀ (st : EmailSequenceStep) (t : EmailTemplate) (s : String),
      st.subject_override = none → t.subject = some s → s ≠ "" → effSubject st t = s) ∧
    (∀ (st : EmailSequenceStep) (t : EmailTemplate),
      st.subject_override = none → t.subject = none →
        effSubject st t = "(No Subject)") ∧
    (∀ (st : EmailSequenceStep) (t : EmailTemplate),
      jsTruthy st.subject_override = false → jsTruthy t.subject = false →
        effSubject st t = "(No Subject)") := by
  refine ⟨?_, ?_, ?_, ?_⟩
  · intro st t s hov hs
    simp [effSubject, jsTruthy, orEmpty, jsStrOr, hov, hs]
  · intro st t s hov hsub hs
    simp [effSubject, jsTruthy, orEmpty, jsStrOr, hov, hsub, hs]
  · intro st t hov hsub
    simp [effSubject, jsTruthy, hov, hsub]
  · intro st t hov hsub
    simp [effSubject, hov, hsub]

/-- C8 witness: subject resolution evaluated at concrete steps and
templates. -/
theorem claim8_witness :
    effSubject ⟨"t1", some "Override", none, none⟩ template1 = "Override" ∧
    effSubject step1 template1 = "Subj" ∧
    effSubject step1 ⟨"t1", none, none, none⟩ = "(No Subject)" :=
  ⟨claim8_subject_resolution.1 _ template1 "Override" rfl (by decide),
   claim8_subject_resolution.2.1 _ template1 "Subj" rfl rfl (by decide),
   claim8_subject_resolution.2.2.1 _ _ rfl rfl⟩

/-- C6: the body the advancer renders is the template HTML, else its plain
text, else the empty string, with every occurrence of the three
placeholders replaced globally by the contact fields, a missing field
substituting the empty string (never the literal `null`).  The universal
part states the fallback-and-substitute decomposition; the concrete parts
exhibit multi-occurrence global replacement, the null-field substitution,
and each fallback tier. -/
theorem claim6_body_rendering :
    (∀ (t : EmailTemplate) (c : Contact),
      renderBody t c = substituteVars (jsStrOr t.body_html (jsStrOr t.body_text "")) c) ∧
    (∀ (c : Contact), substituteVars "" c = "") ∧
    (substituteVars
        "A \x7b\x7bfirst_name\x7d\x7d B \x7b\x7bfirst_name\x7d\x7d, \x7b\x7blast_name\x7d\x7d-\x7b\x7blast_name\x7d\x7d <\x7b\x7bemail\x7d\x7d|\x7b\x7bemail\x7d\x7d>"
        ⟨"c", some "e@x", some "Jo", none⟩ = "A Jo B Jo, - <e@x|e@x>") ∧
    (renderBody ⟨"t", some "s", some "H \x7b\x7bfirst_name\x7d\x7d!", some "ignored"⟩
        ⟨"c", none, none, some "Ln"⟩ = "H !") ∧
    (renderBody ⟨"t", none, none, some "Text \x7b\x7bemail\x7d\x7d"⟩
        ⟨"c", some "e@x", none, none⟩ = "Text e@x") ∧
    (renderBody ⟨"t", none, none, none⟩ ⟨"c", none, none, none⟩ = "") :=
  ⟨fun _ _ => rfl, fun _ => rfl, by decide, by decide, by decide, by decide⟩

/-- C1 counterexample: the auto-complete branch updates only `status` and
`updated_at`, so an enrollment past its steps whose `next_send_at` was 100
keeps `next_send_at = 100` after the run instead of null; and an
enrollment past its steps with a null contact is reported as an error, not
completed. -/
theorem claim1_counterexample :
    (processEnrollment baseEnv [] enrNoContact).result.status = "error" ∧
    ((applyEvents [enrPast] (processEnrollment baseEnv [] enrPast).events).map
        (fun r => (r.status, r.next_send_at)) =
      [(EnrollmentStatus.completed, some 100)]) ∧
    (processEnrollment baseEnv [] enrPast).result.status = "success" := by
  decide

/-- C1 amended: for every enrollment with a valid contact email whose
`current_step` is at least the number of steps, the advancer sends no
message, writes exactly one update marking the row completed (leaving
`next_send_at` unchanged rather than setting it to null), returns a
success result, and re-running it on the updated row yields the same
outcome. -/
theorem claim1_idempotent_completion :
    ∀ (env : Env) (ts : List (String × SMTPConfig)) (e : EnrollmentWithRelations)
      (c : Contact),
      e.contact = some c → jsTruthy c.email = true →
      e.sequence.steps.length ≤ e.current_step →
      (processEnrollment env ts e).result =
        ⟨e.id, "success", some "Sequence completed (no more steps)"⟩ ∧
      (processEnrollment env ts e).events =
        [.updateEnrollment e.id { status := some .completed, updated_at := some env.now }] ∧
      (processEnrollment env ts e).events.countP isSendEvent = 0 ∧
      (applyEvents [e] (processEnrollment env ts e).events =
        [{ e with status := .completed }]) ∧
      processEnrollment env ts { e with status := .completed } =
        processEnrollment env ts e := by
  intro env ts e c hc he hlen
  have hg : e.sequence.steps[e.current_step]? = none := List.getElem?_eq_none hlen
  refine ⟨?_, ?_, ?_, ?_, ?_⟩ <;>
    simp [processEnrollment, hc, he, hg, applyEvents, applyUpdate, isSendEvent]

/-- C1 witness: the amended completion behaviour at a concrete enrollment
past its steps. -/
theorem claim1_witness :
    (processEnrollment baseEnv [] enrPast).result =
      ⟨"e2", "success", some "Sequence completed (no more steps)"⟩ :=
  (claim1_idempotent_completion baseEnv [] enrPast contact1 rfl rfl (by decide)).1

/-- Transporter acquisition either fails before any event or fails inside
the throwing decrypt; its event list is `[]` or the single decrypt. -/
lemma acquireTransport_error_spec (env : Env) (ts : List (String × SMTPConfig))
    (sid m : String) (evs : List Event) :
    acquireTransport env ts sid = .error (m, evs) →
    evs = [] ∨ evs = [Event.decrypt sid] := by
  unfold acquireTransport
  repeat' split
  all_goals intro h
  all_goals simp_all

/-- Successful transporter acquisition either reuses the cached entry
(no event, cache unchanged) or decrypts once and constructs once, caching
the account under its id. -/
lemma acquireTransport_ok_spec (env : Env) (ts : List (String × SMTPConfig))
    (sid : String) (a : SMTPConfig) (ts2 : List (String × SMTPConfig))
    (evs : List Event) :
    acquireTransport env ts sid = .ok (a, ts2, evs) →
    (evs = [] ∧ ts2 = ts ∧ List.lookup sid ts = some a) ∨
    (evs = [Event.decrypt sid, Event.createTransport sid] ∧ ts2 = (sid, a) :: ts ∧
      List.lookup sid ts = none) := by
  unfold acquireTransport
  repeat' split
  all_goals intro h
  all_goals try (exact Except.noConfusion h)
  all_goals injection h with h
  all_goals simp only [Prod.mk.injEq] at h
  all_goals obtain ⟨ha, hts, hevs⟩ := h
  all_goals subst ha
  all_goals subst hevs
  · left
    exact ⟨rfl, hts.symm, by assumption⟩
  · right
    exact ⟨rfl, hts.symm, by assumption⟩

/-- The result object always carries the processed enrollment's id. -/
lemma processEnrollment_id (env : Env) (ts : List (String × SMTPConfig))
    (e : EnrollmentWithRelations) :
    (processEnrollment env ts e).result.id = e.id := by
  unfold processEnrollment sendPipeline
  repeat' split
  all_goals rfl

/-- The result object always carries a human-readable message. -/
lemma processEnrollment_message_some (env : Env) (ts : List (String × SMTPConfig))
    (e : EnrollmentWithRelations) :
    (processEnrollment env ts e).result.message.isSome = true := by
  unfold processEnrollment sendPipeline
  repeat' split
  all_goals rfl

/-- An error outcome emits no enrollment-update event. -/
lemma processEnrollment_error_no_update (env : Env) (ts : List (String × SMTPConfig))
    (e : EnrollmentWithRelations) :
    (processEnrollment env ts e).result.status = "error" →
    (processEnrollment env ts e).events.filter isUpdateEnrollmentEvent = [] := by
  unfold processEnrollment sendPipeline
  repeat' split
  all_goals intro h
  all_goals
    first
      | (rcases acquireTransport_ok_spec _ _ _ _ _ _ (by assumption) with
          ⟨h1, h2, h3⟩ | ⟨h1, h2, h3⟩ <;>
          subst h1 <;>
          simp_all [isUpdateEnrollmentEvent, List.filter_append, List.filter])
      | (rcases acquireTransport_error_spec _ _ _ _ _ (by assumption) with h1 | h1 <;>
          subst h1 <;>
          simp_all [isUpdateEnrollmentEvent, List.filter_append, List.filter])
      | simp_all [isUpdateEnrollmentEvent, List.filter_append, List.filter]

/-- A trace without enrollment-update events leaves every row unchanged. -/
lemma applyEvents_no_update (rows : List EnrollmentWithRelations) :
    ∀ evs : List Event, evs.filter isUpdateEnrollmentEvent = [] →
      applyEvents rows evs = rows := by
  intro evs
  induction evs generalizing rows with
  | nil => intro _; rfl
  | cons ev rest ih =>
    intro h
    rw [List.filter_cons] at h
    by_cases hev : isUpdateEnrollmentEvent ev = true
    · simp [hev] at h
    · have hrest : rest.filter isUpdateEnrollmentEvent = [] := by
        simpa [hev] using h
      cases ev <;>
        first
          | exact ih rows hrest
          | simp [isUpdateEnrollmentEvent] at hev

/-- One result per enrollment: the batch never drops or aborts members. -/
lemma runSeq_length (env : Env) :
    ∀ (l : List EnrollmentWithRelations) (ts : List (String × SMTPConfig)),
      (runSeq env ts l).1.length = l.length := by
  intro l
  induction l with
  | nil => intro ts; rfl
  | cons e rest ih => intro ts; simp [runSeq, ih]

/-- C2: an error at any point of the per-enrollment pipeline is caught at
the enrollment boundary: the result is a per-enrollment entry carrying the
enrollment id and a message, the enrollment rows are unmutated, and the
batch yields one entry per member.  Concretely, a batch of 3 where exactly
the middle enrollment has a missing template yields 3 entries with one
error and two successes, and the failing enrollment's `current_step` stays
0. -/
theorem claim2_failure_isolation :
    (∀ (env : Env) (ts : List (String × SMTPConfig)) (e : EnrollmentWithRelations),
      (processEnrollment env ts e).result.status = "error" →
        (processEnrollment env ts e).result.id = e.id ∧
        (processEnrollment env ts e).result.message.isSome = true ∧
        (∀ rows, applyEvents rows (processEnrollment env ts e).events = rows)) ∧
    (∀ (env : Env) (ts : List (String × SMTPConfig)) (l : List EnrollmentWithRelations),
      (runSeq env ts l).1.length = l.length) ∧
    ((POSTHandler env3).1.details.map (fun r => r.status) =
        ["success", "error", "success"] ∧
      (POSTHandler env3).1.successCount = some 2 ∧
      (POSTHandler env3).1.failureCount = some 1 ∧
      (applyEvents env3.enrollments (POSTHandler env3).2).map
          (fun r => (r.id, r.current_step)) = [("a", 1), ("b", 0), ("c", 1)]) := by
  refine ⟨?_, ?_, ?_⟩
  · intro env ts e h
    exact ⟨processEnrollment_id env ts e, processEnrollment_message_some env ts e,
      fun rows => applyEvents_no_update rows _ (processEnrollment_error_no_update env ts e h)⟩
  · intro env ts l
    exact runSeq_length env l ts
  · decide

/-- C2 witness: the missing-template enrollment of the concrete batch is
reported as an error carrying a message and its row is left unchanged. -/
theorem claim2_witness :
    (processEnrollment env3 [] (mkEnr "b" 0 none (some contact1) seqMissing)).result.message.isSome
        = true ∧
    applyEvents [mkEnr "b" 0 none (some contact1) seqMissing]
        (processEnrollment env3 [] (mkEnr "b" 0 none (some contact1) seqMissing)).events =
      [mkEnr "b" 0 none (some contact1) seqMissing] := by
  have h := claim2_failure_isolation.1 env3 [] (mkEnr "b" 0 none (some contact1) seqMissing)
    (by decide)
  exact ⟨h.2.1, h.2.2 _⟩

/-- C9: when the advance succeeds and a next step still exists, the only
enrollment update written sets `current_step`, `updated_at` and
`next_send_at`; its `status` field is absent, so applying it preserves any
row's status (an active enrollment stays active). -/
theorem claim9_frame_on_advance :
    ∀ (env : Env) (ts : List (String × SMTPConfig)) (e : EnrollmentWithRelations)
      (u : RowUpdate) (h : e.current_step + 1 < e.sequence.steps.length),
      Event.updateEnrollment e.id u ∈ (processEnrollment env ts e).events →
      u = { current_step := some (e.current_step + 1), updated_at := some env.now,
            next_send_at := some (some (computeNextSendAt env.now
              (e.sequence.steps.get ⟨e.current_step + 1, h⟩))) } ∧
      u.status = none ∧
      (∀ row, (applyUpdate row u).status = row.status) := by
  intro env ts e u h hmem
  have hlt0 : e.current_step < e.sequence.steps.length := Nat.lt_of_succ_lt h
  have hcs := List.getElem?_eq_getElem hlt0
  have hns := List.getElem?_eq_getElem h
  unfold processEnrollment sendPipeline at hmem
  repeat' split at hmem
  all_goals
    first
      | (rcases acquireTransport_ok_spec _ _ _ _ _ _ (by assumption) with
          ⟨h1, h2, h3⟩ | ⟨h1, h2, h3⟩ <;> subst h1 <;>
          simp_all [applyUpdate])
      | (rcases acquireTransport_error_spec _ _ _ _ _ (by assumption) with h1 | h1 <;>
          subst h1 <;> simp_all [applyUpdate])
      | simp_all [applyUpdate]

/-- C9 witness: the concrete update written for a two-step sequence does
not touch the status column. -/
theorem claim9_witness :
    upd9.status = none ∧ ∀ row, (applyUpdate row upd9).status = row.status :=
  ⟨(claim9_frame_on_advance baseEnv [] enr2 upd9 (by decide) (by decide)).2.1,
   (claim9_frame_on_advance baseEnv [] enr2 upd9 (by decide) (by decide)).2.2⟩

/-- C5: the email-log row is inserted before the network send in every
trace of the advancer, and when the insert fails the send is never
attempted and the enrollment is reported as a per-enrollment failure with
the log-creation message. -/
theorem claim5_log_before_send :
    ∀ (env : Env) (ts : List (String × SMTPConfig)) (e : EnrollmentWithRelations),
      sendAfterLog e.id (processEnrollment env ts e).events = true ∧
      (∀ m, env.insertEmailResult e.id = .error m →
        (processEnrollment env ts e).events.countP isSendEvent = 0 ∧
        ((processEnrollment env ts e).events.countP (isInsertLogEventFor e.id) ≠ 0 →
          (processEnrollment env ts e).result.status = "error" ∧
          (processEnrollment env ts e).result.message =
            some ("Failed to create email log: " ++ m))) := by
  intro env ts e
  constructor
  · unfold processEnrollment sendPipeline
    repeat' split
    all_goals
      first
        | (rcases acquireTransport_ok_spec _ _ _ _ _ _ (by assumption) with
            ⟨h1, h2, h3⟩ | ⟨h1, h2, h3⟩ <;> subst h1 <;>
            simp_all [sendAfterLog, isSendEvent, isInsertLogEventFor])
        | (rcases acquireTransport_error_spec _ _ _ _ _ (by assumption) with h1 | h1 <;>
            subst h1 <;> simp_all [sendAfterLog, isSendEvent, isInsertLogEventFor])
        | simp_all [sendAfterLog, isSendEvent, isInsertLogEventFor]
  · intro m hins
    unfold processEnrollment sendPipeline
    repeat' split
    all_goals
      first
        | (rcases acquireTransport_ok_spec _ _ _ _ _ _ (by assumption) with
            ⟨h1, h2, h3⟩ | ⟨h1, h2, h3⟩ <;> subst h1 <;>
            simp_all [isSendEvent, isInsertLogEventFor, List.countP_append,
              List.countP_cons])
        | (rcases acquireTransport_error_spec _ _ _ _ _ (by assumption) with h1 | h1 <;>
            subst h1 <;>
            simp_all [isSendEvent, isInsertLogEventFor, List.countP_append,
              List.countP_cons])
        | simp_all [isSendEvent, isInsertLogEventFor, List.countP_append, List.countP_cons]

/-- C5 witness: with a failing email-log insert, the concrete enrollment
attempts no send and is reported as an error. -/
theorem claim5_witness :
    sendAfterLog "e9" (processEnrollment envInsFail [] enr2).events = true ∧
    (processEnrollment envInsFail [] enr2).events.countP isSendEvent = 0 ∧
    (processEnrollment envInsFail [] enr2).result.status = "error" := by
  have h := claim5_log_before_send envInsFail [] enr2
  exact ⟨h.1, (h.2 "db down" rfl).1, ((h.2 "db down" rfl).2 (by decide)).1⟩

lemma lookupBit_le_one (ts : List (String × SMTPConfig)) (acc : String) :
    lookupBit ts acc ≤ 1 := by
  unfold lookupBit
  split <;> simp

/-- A decrypt throw is impossible when the environment's decrypt always
succeeds, so a failed acquisition emits no event at all. -/
lemma acquireTransport_no_decrypt_error (env : Env) (ts : List (String × SMTPConfig))
    (sid m : String) (evs : List Event)
    (hdec : ∀ s mm, env.decryptResult s ≠ Except.error mm) :
    acquireTransport env ts sid = .error (m, evs) → evs = [] := by
  unfold acquireTransport
  repeat' split
  all_goals intro h
  all_goals try (exact Except.noConfusion h)
  all_goals try (exact absurd (by assumption) (hdec _ _))
  all_goals injection h with h
  all_goals simp only [Prod.mk.injEq] at h
  all_goals exact h.2.symm

lemma lookup_cons_self {k : String} {v : SMTPConfig} {ts : List (String × SMTPConfig)} :
    List.lookup k ((k, v) :: ts) = some v := by
  simp [List.lookup_cons]

lemma lookup_cons_ne {a k : String} {v : SMTPConfig} {ts : List (String × SMTPConfig)}
    (h : ¬ a = k) : List.lookup a ((k, v) :: ts) = List.lookup a ts := by
  simp [List.lookup_cons, beq_false_of_ne h]

/-- Each enrollment adds at most the cache deficit for an account: once the
account is cached no further construction for it happens, and a
construction caches it. -/
lemma processEnrollment_create_bound (env : Env) (ts : List (String × SMTPConfig))
    (e : EnrollmentWithRelations) (acc : String) :
    (processEnrollment env ts e).events.countP (isCreateTransportFor acc) +
      lookupBit ts acc ≤
      lookupBit (processEnrollment env ts e).transporters acc := by
  unfold processEnrollment sendPipeline
  repeat' split
  all_goals
    first
      | (rcases acquireTransport_error_spec _ _ _ _ _ (by assumption) with h1 | h1 <;>
          subst h1 <;>
          simp [lookupBit, isCreateTransportFor, List.countP_append, List.countP_cons])
      | (rcases acquireTransport_ok_spec _ _ _ _ _ _ (by assumption) with
          ⟨h1, h2, h3⟩ | ⟨h1, h2, h3⟩ <;> subst h1 <;> subst h2 <;>
          by_cases hacc : acc = orEmpty e.sequence.smtp_config_id <;>
          first
            | (subst hacc
               simp only [lookupBit]
               rw [lookup_cons_self]
               simp [isCreateTransportFor, List.countP_append, List.countP_cons, h3])
            | (simp only [lookupBit]
               rw [lookup_cons_ne hacc]
               simp [isCreateTransportFor, List.countP_append, List.countP_cons,
                 beq_false_of_ne (Ne.symm hacc)])
            | (subst hacc
               simp [lookupBit, isCreateTransportFor, List.countP_append,
                 List.countP_cons])
            | simp [lookupBit, isCreateTransportFor, List.countP_append,
                List.countP_cons])
      | simp [lookupBit, isCreateTransportFor, List.countP_append, List.countP_cons]

/-- With an always-succeeding decrypt, every decrypt call is paired with a
transport construction in each enrollment's trace. -/
lemma processEnrollment_decrypt_eq_create (env : Env) (ts : List (String × SMTPConfig))
    (e : EnrollmentWithRelations) (acc : String)
    (hdec : ∀ s mm, env.decryptResult s ≠ Except.error mm) :
    (processEnrollment env ts e).events.countP (isDecryptFor acc) =
      (processEnrollment env ts e).events.countP (isCreateTransportFor acc) := by
  unfold processEnrollment sendPipeline
  repeat' split
  all_goals
    first
      | (rcases acquireTransport_ok_spec _ _ _ _ _ _ (by assumption) with
          ⟨h1, h2, h3⟩ | ⟨h1, h2, h3⟩ <;> subst h1 <;>
          simp_all [isDecryptFor, isCreateTransportFor, List.countP_append,
            List.countP_cons])
      | (have hevs := acquireTransport_no_decrypt_error _ _ _ _ _ hdec (by assumption)
         subst hevs
         simp_all [isDecryptFor, isCreateTransportFor, List.countP_append,
           List.countP_cons])
      | simp_all [isDecryptFor, isCreateTransportFor, List.countP_append, List.countP_cons]

lemma runSeq_create_bound (env : Env) (acc : String) :
    ∀ (l : List EnrollmentWithRelations) (ts : List (String × SMTPConfig)),
      (runSeq env ts l).2.2.countP (isCreateTransportFor acc) + lookupBit ts acc ≤
        lookupBit (runSeq env ts l).2.1 acc := by
  intro l
  induction l with
  | nil => intro ts; simp [runSeq]
  | cons e rest ih =>
    intro ts
    have h1 := processEnrollment_create_bound env ts e acc
    have h2 := ih (processEnrollment env ts e).transporters
    simp only [runSeq, List.countP_append]
    omega

lemma runSeq_decrypt_eq_create (env : Env) (acc : String)
    (hdec : ∀ s mm, env.decryptResult s ≠ Except.error mm) :
    ∀ (l : List EnrollmentWithRelations) (ts : List (String × SMTPConfig)),
      (runSeq env ts l).2.2.countP (isDecryptFor acc) =
        (runSeq env ts l).2.2.countP (isCreateTransportFor acc) := by
  intro l
  induction l with
  | nil => intro ts; simp [runSeq]
  | cons e rest ih =>
    intro ts
    have h1 := processEnrollment_decrypt_eq_create env ts e acc hdec
    have h2 := ih (processEnrollment env ts e).transporters
    simp only [runSeq, List.countP_append]
    omega

lemma runBatches_create_bound (env : Env) (acc : String) :
    ∀ (bs : List (List EnrollmentWithRelations)) (ts : List (String × SMTPConfig)),
      (runBatches env bs ts).2.2.countP (isCreateTransportFor acc) + lookupBit ts acc ≤
        lookupBit (runBatches env bs ts).2.1 acc := by
  intro bs
  induction bs with
  | nil => intro ts; simp [runBatches]
  | cons b rest ih =>
    intro ts
    have h1 := runSeq_create_bound env acc b ts
    have h2 := ih (runSeq env ts b).2.1
    simp only [runBatches, List.countP_append]
    omega

lemma runBatches_decrypt_eq_create (env : Env) (acc : String)
    (hdec : ∀ s mm, env.decryptResult s ≠ Except.error mm) :
    ∀ (bs : List (List EnrollmentWithRelations)) (ts : List (String × SMTPConfig)),
      (runBatches env bs ts).2.2.countP (isDecryptFor acc) =
        (runBatches env bs ts).2.2.countP (isCreateTransportFor acc) := by
  intro bs
  induction bs with
  | nil => intro ts; simp [runBatches]
  | cons b rest ih =>
    intro ts
    have h1 := runSeq_decrypt_eq_create env acc hdec b ts
    have h2 := ih (runSeq env ts b).2.1
    simp only [runBatches, List.countP_append]
    omega

/-- C4 counterexample: with the lazy-init check and population separated
by awaited calls, two same-batch enrollments sharing one new account can
both miss the cache and both decrypt and construct - two decryptions and
two constructions, not one - while the sequential schedule constructs
once. -/
theorem claim4_counterexample :
    (raceRun ["s1", "s1"] [0, 1, 0, 1]).events.countP (isCreateTransportFor "s1") = 2 ∧
    (raceRun ["s1", "s1"] [0, 1, 0, 1]).events.countP (isDecryptFor "s1") = 2 ∧
    (raceRun ["s1", "s1"] [0, 0, 1]).events.countP (isCreateTransportFor "s1") = 1 := by
  decide

/-- C4 amended: under sequential (non-overlapping) processing of the
enrollments, a whole run - batches included - constructs at most one
transporter per account id, decrypt calls match construction calls
one-to-one when decryption succeeds, and the concrete 6-enrollment run
(two sequential batches sharing one account) decrypts and constructs
exactly once. -/
theorem claim4_transport_reuse :
    (∀ (env : Env) (acc : String) (bs : List (List EnrollmentWithRelations)),
      (runBatches env bs []).2.2.countP (isCreateTransportFor acc) ≤ 1) ∧
    (∀ (env : Env) (acc : String) (bs : List (List EnrollmentWithRelations)),
      (∀ s mm, env.decryptResult s ≠ Except.error mm) →
      (runBatches env bs []).2.2.countP (isDecryptFor acc) =
        (runBatches env bs []).2.2.countP (isCreateTransportFor acc)) ∧
    (∀ (env : Env) (acc : String),
      (POSTHandler env).2.countP (isCreateTransportFor acc) ≤ 1) ∧
    ((POSTHandler env6).2.countP (isCreateTransportFor "s1") = 1 ∧
      (POSTHandler env6).2.countP (isDecryptFor "s1") = 1 ∧
      (POSTHandler env6).1.successCount = some 6) := by
  have hbound : ∀ (env : Env) (acc : String) (bs : List (List EnrollmentWithRelations)),
      (runBatches env bs []).2.2.countP (isCreateTransportFor acc) ≤ 1 := by
    intro env acc bs
    have h1 := runBatches_create_bound env acc bs []
    have h2 := lookupBit_le_one (runBatches env bs []).2.1 acc
    have h0 : lookupBit ([] : List (String × SMTPConfig)) acc = 0 := rfl
    omega
  refine ⟨hbound, ?_, ?_, ?_⟩
  · intro env acc bs hdec
    exact runBatches_decrypt_eq_create env acc hdec bs []
  · intro env acc
    by_cases hemp : (dueEnrollments env).isEmpty = true
    · simp [POSTHandler, hemp]
    · have hemp2 : (dueEnrollments env).isEmpty = false := by simpa using hemp
      simp only [POSTHandler, hemp2, Bool.false_eq_true, if_false]
      exact hbound env acc (chunksFuel 5 (dueEnrollments env).length (dueEnrollments env))
  · refine ⟨by decide, by decide, by decide⟩

/-- C4 witness: decrypt and construction counts coincide on a concrete
two-enrollment batch whose decrypt succeeds. -/
theorem claim4_witness :
    (runBatches env6 [[mkEnr "x1" 0 none (some contact1) seq1,
        mkEnr "x2" 0 none (some contact1) seq1]] []).2.2.countP (isDecryptFor "s1") =
      (runBatches env6 [[mkEnr "x1" 0 none (some contact1) seq1,
        mkEnr "x2" 0 none (some contact1) seq1]] []).2.2.countP
        (isCreateTransportFor "s1") :=
  claim4_transport_reuse.2.1 env6 "s1"
    [[mkEnr "x1" 0 none (some contact1) seq1, mkEnr "x2" 0 none (some contact1) seq1]]
    (fun s mm h => by simp [env6, baseEnv] at h)

/-- C7 counterexample: the empty-queue response reports success with
`processed = 0` and a message and performs no action, but it omits the
`successCount` and `failureCount` keys, so it does not carry every field of
the documented response contract. -/
theorem claim7_counterexample :
    (POSTHandler baseEnv).1.success = true ∧
    (POSTHandler baseEnv).1.processed = 0 ∧
    (POSTHandler baseEnv).1.message = some "No enrollments due for processing" ∧
    (POSTHandler baseEnv).2 = [] ∧
    conformsToContract (POSTHandler baseEnv).1 = false := by
  decide

/-- C7 amended: when the due-enrollment query returns no enrollments the
runner returns a success response with `processed = 0`, empty details and
an explanatory message, attempts no send (indeed performs no action at
all), and omits `successCount` and `failureCount` - the response carries
the contract fields minus those two counts. -/
theorem claim7_empty_queue :
    ∀ env : Env, dueEnrollments env = [] →
      POSTHandler env =
        (⟨true, 0, none, none, [], some "No enrollments due for processing"⟩, []) ∧
      (POSTHandler env).2.countP isSendEvent = 0 := by
  intro env h
  constructor
  · simp [POSTHandler, h]
  · simp [POSTHandler, h]

/-- C7 witness: the empty-queue short circuit at a concrete environment. -/
theorem claim7_witness :
    POSTHandler baseEnv =
      (⟨true, 0, none, none, [], some "No enrollments due for processing"⟩, []) :=
  (claim7_empty_queue baseEnv rfl).1

end GrantCRM

